import Mathlib

/-!
Verification of the database access layer of the ef-fastapi repository
(src/utils/db.py, src/models.py, src/routers/taipower.py, src/routers/vpp.py)
against its natural-language specification.

The Python code is shallowly embedded: psycopg2 row values become the
inductive type PyVal, rows become association lists from column names to
values, the connection pool becomes a count of available connections, and
the committed database state is threaded explicitly.  Statements that can
raise return Except values.
-/

set_option autoImplicit false

namespace EfFastapi

/-! ## Python values as delivered by psycopg2 row cursors -/

/-- A calendar date as held by a Python datetime.date. -/
structure PyDate where
  year : Nat
  month : Nat
  day : Nat
  deriving DecidableEq, Repr

/-- A timestamp as held by a Python datetime.datetime (naive, second precision,
matching the TIMESTAMP columns of the schema). -/
structure Timestamp where
  year : Nat
  month : Nat
  day : Nat
  hour : Nat
  minute : Nat
  second : Nat
  deriving DecidableEq, Repr

/-- Values that psycopg2 can place in a RealDictRow: None, bool, int, float,
Decimal (NUMERIC columns), str, datetime.date (DATE columns) and
datetime.datetime (TIMESTAMP columns).  Python floats and Decimals are both
modelled by rationals; the claims under verification concern which conversion
is applied, not floating-point rounding. -/
inductive PyVal where
  | vNone
  | vBool (b : Bool)
  | vInt (n : Int)
  | vFloat (q : ℚ)
  | vDecimal (q : ℚ)
  | vStr (s : String)
  | vDate (d : PyDate)
  | vDatetime (t : Timestamp)
  deriving DecidableEq, Repr

/-- A database row: ordered mapping from column name to value (RealDictRow). -/
abbrev Row := List (String × PyVal)

/-- Zero-padding to width 2, as Python isoformat renders month/day/time parts. -/
def pad2 (n : Nat) : String :=
  if n < 10 then "0" ++ toString n else toString n

/-- Zero-padding to width 4, as Python isoformat renders the year. -/
def pad4 (n : Nat) : String :=
  if n < 10 then "000" ++ toString n
  else if n < 100 then "00" ++ toString n
  else if n < 1000 then "0" ++ toString n
  else toString n

/-- datetime.date.isoformat: the ISO-8601 date string YYYY-MM-DD. -/
def isoDate (d : PyDate) : String :=
  pad4 d.year ++ "-" ++ pad2 d.month ++ "-" ++ pad2 d.day

/-- datetime.datetime.isoformat: the ISO-8601 string YYYY-MM-DDTHH:MM:SS. -/
def isoDatetime (t : Timestamp) : String :=
  pad4 t.year ++ "-" ++ pad2 t.month ++ "-" ++ pad2 t.day ++ "T" ++
    pad2 t.hour ++ ":" ++ pad2 t.minute ++ ":" ++ pad2 t.second

/-- hasattr(value, 'isoformat'): true exactly for date and datetime values. -/
def hasIsoformat : PyVal → Bool
  | .vDate _ => true
  | .vDatetime _ => true
  | _ => false

/-- hasattr(value, '__float__'): in Python this holds for Decimal, but also
for int, float and bool (bool is a subclass of int). -/
def hasFloatConv : PyVal → Bool
  | .vBool _ => true
  | .vInt _ => true
  | .vFloat _ => true
  | .vDecimal _ => true
  | _ => false

/-- value.isoformat() on the values that have it. -/
def isoformatOf : PyVal → String
  | .vDate d => isoDate d
  | .vDatetime t => isoDatetime t
  | _ => ""

/-- float(value) on the values that support it. -/
def floatOf : PyVal → ℚ
  | .vBool b => if b then 1 else 0
  | .vInt n => (n : ℚ)
  | .vFloat q => q
  | .vDecimal q => q
  | _ => 0

/-- The per-value branch of utils/db.py row_to_dict: first the isoformat
check, then the float check, otherwise pass through. -/
def convertValue (v : PyVal) : PyVal :=
  if hasIsoformat v then .vStr (isoformatOf v)
  else if hasFloatConv v then .vFloat (floatOf v)
  else v

/-- utils/db.py row_to_dict: None maps to None, otherwise every value of the
row is converted by convertValue under its original key. -/
def row_to_dict : Option Row → Option Row
  | none => none
  | some row => some (row.map (fun kv => (kv.1, convertValue kv.2)))

/-- routers/taipower.py defines its own local row_to_dict which returns
dict(row): the row unchanged, with no value conversion. -/
def taipowerRowToDict : Option Row → Option Row
  | none => none
  | some row => some row

/-- A value is in normalized (JSON-safe) form when no temporal value and no
Decimal value remains in it. -/
def valNormalized : PyVal → Bool
  | .vDate _ => false
  | .vDatetime _ => false
  | .vDecimal _ => false
  | _ => true

/-- A (possibly absent) row is normalized when all its values are. -/
def rowNormalized : Option Row → Bool
  | none => true
  | some row => row.all (fun kv => valNormalized kv.2)

theorem convertValue_normalized (v : PyVal) : valNormalized (convertValue v) = true := by
  cases v <;> rfl

theorem row_to_dict_normalized (r : Option Row) : rowNormalized (row_to_dict r) = true := by
  cases r with
  | none => rfl
  | some row =>
      simp only [row_to_dict, rowNormalized, List.all_eq_true]
      intro kv hkv
      obtain ⟨p, _, rfl⟩ := List.mem_map.mp hkv
      exact convertValue_normalized p.2

/-! ## Connection pool and query executor (utils/db.py) -/

/-- Result modes of execute_query: no result (inserts/updates), a single
optional row (fetch_one), or all rows (fetch). -/
inductive QueryResult (R : Type) where
  | noResult
  | one (r : Option R)
  | many (rs : List R)
  deriving DecidableEq, Repr

/-- State threaded through a query: the number of connections sitting in the
pool, and the committed database contents. -/
structure DBState (DB : Type) where
  pool : Nat
  db : DB
  deriving DecidableEq, Repr

/-- A parameterized SQL statement, abstracted as its semantics on the
committed state: either an error (exception raised by cursor.execute) or the
new transaction contents together with the rows of the result cursor. -/
def Stmt (DB R : Type) := DB → Except String (DB × List R)

/-- db_pool.getconn(): hands out a connection when one is available. -/
def getconn (p : Nat) : Option Nat :=
  if p = 0 then none else some (p - 1)

/-- db_pool.putconn(conn): unconditionally returns the connection
(the finally block of the get_db_connection context manager). -/
def putconn (p : Nat) : Nat := p + 1

/-- utils/db.py execute_query: acquire a connection from the pool, run the
statement; on success build the result according to fetch / fetch_one and
commit; on exception roll back and re-raise.  The connection goes back to the
pool on every exit path. -/
def execute_query {DB R : Type} (stmt : Stmt DB R) (fetch fetch_one : Bool)
    (s : DBState DB) : DBState DB × Except String (QueryResult R) :=
  match getconn s.pool with
  | none => (s, .error "pool unavailable")
  | some p =>
      match stmt s.db with
      | .ok (db2, rows) =>
          let result :=
            if fetch then QueryResult.many rows
            else if fetch_one then QueryResult.one rows.head?
            else QueryResult.noResult
          (⟨putconn p, db2⟩, .ok result)
      | .error e => (⟨putconn p, s.db⟩, .error e)

/-! ## Batch executor (utils/db.py execute_batch) -/

/-- Outcome of one cursor.execute inside the batch loop: success with a
rowcount, a uniqueness-constraint violation (psycopg2.IntegrityError), or any
other exception. -/
inductive StmtResult (DB : Type) where
  | ok (db : DB) (rowcount : Nat)
  | integrityError
  | otherError (e : String)

/-- The per-row loop of execute_batch.  base is the committed state at
connection checkout; cur is the current uncommitted transaction contents.  On
IntegrityError the code calls conn.rollback(), which resets the whole
transaction to base, and continues with the next row without touching
success_count.  Any other exception aborts the loop. -/
def batchLoop {DB Data : Type} (stmt : DB → Data → StmtResult DB) (base : DB) :
    DB → Nat → List Data → Except String (DB × Nat)
  | cur, count, [] => .ok (cur, count)
  | cur, count, d :: rest =>
      match stmt cur d with
      | .ok cur2 rc => batchLoop stmt base cur2 (count + rc) rest
      | .integrityError => batchLoop stmt base base count rest
      | .otherError e => .error e

/-- utils/db.py execute_batch: run the loop in one transaction, commit once at
the end, and return the accumulated success_count; on a non-integrity error
roll back (committed state unchanged) and re-raise. -/
def execute_batch {DB Data : Type} (stmt : DB → Data → StmtResult DB)
    (committed : DB) (data_list : List Data) : DB × Except String Nat :=
  match batchLoop stmt committed committed 0 data_list with
  | .ok (cur, count) => (cur, .ok count)
  | .error e => (committed, .error e)

/-- A table with a single-column unique key, holding (key, payload) rows. -/
abbrev KeyDB := List (Nat × Nat)

/-- Whether a key is present in the table. -/
def hasKey (db : KeyDB) (k : Nat) : Bool :=
  db.any (fun kv => kv.1 == k)

/-- A plain INSERT against a unique key: raises IntegrityError on a duplicate
key (visible in the current transaction), otherwise appends the row with
rowcount 1. -/
def uniqueInsertStmt (db : KeyDB) (d : Nat × Nat) : StmtResult KeyDB :=
  if hasKey db d.1 then .integrityError else .ok (db ++ [d]) 1

/-- The committed table before the batch: key 3 is already taken. -/
def exBaseDB : KeyDB := [(3, 0)]

/-- A batch of 5 rows whose third row collides with the existing key 3. -/
def exBatch : List (Nat × Nat) := [(1, 1), (2, 2), (3, 3), (4, 4), (5, 5)]

/-! ## Time-series schema and upsert model (src/models.py) -/

/-- One row of solar_data as written by SolarDataModel.INSERT_SQL (the 13
inserted columns; id and created_at are database-side defaults that the
insert statement never touches). -/
structure SolarRow where
  site_id : String
  dt : Timestamp
  daily_generation : ℚ
  solar_radiation : ℚ
  ac_avg_voltage : ℚ
  ac_total_power : ℚ
  ac_total_current : ℚ
  dc_avg_voltage : ℚ
  dc_total_power : ℚ
  dc_total_current : ℚ
  module_temperature : ℚ
  total_accumulated_generation : ℚ
  co2_reduction : ℚ
  deriving DecidableEq, Repr

abbrev SolarDB := List SolarRow

/-- The UNIQUE(site_id, datetime) key of solar_data. -/
def solarKey (r : SolarRow) : String × Timestamp := (r.site_id, r.dt)

/-- SolarDataModel.INSERT_SQL with ON CONFLICT (site_id, datetime) DO
NOTHING: if a row with the same key exists the statement is a silent no-op,
otherwise the row is added. -/
def solarInsert : SolarDB → SolarRow → SolarDB
  | [], r => [r]
  | x :: rest, r =>
      if solarKey x == solarKey r then x :: rest else x :: solarInsert rest r

/-- One row of load_data as written by LoadDataModel.INSERT_SQL. -/
structure LoadRow where
  site_id : String
  dt : Timestamp
  load_value : ℚ
  deriving DecidableEq, Repr

abbrev LoadDB := List LoadRow

/-- The UNIQUE(site_id, datetime) key of load_data. -/
def loadKey (r : LoadRow) : String × Timestamp := (r.site_id, r.dt)

/-- LoadDataModel.INSERT_SQL with ON CONFLICT (site_id, datetime) DO NOTHING. -/
def loadInsert : LoadDB → LoadRow → LoadDB
  | [], r => [r]
  | x :: rest, r =>
      if loadKey x == loadKey r then x :: rest else x :: loadInsert rest r

/-- The eleven bid/price fields carried by TaipowerReserveModel.UPSERT_SQL. -/
structure ReservePayload where
  sr_bid : ℚ
  sr_bid_qse : ℚ
  sr_bid_nontrade : ℚ
  sr_price : ℚ
  sr_perf_price_1 : ℚ
  sr_perf_price_2 : ℚ
  sr_perf_price_3 : ℚ
  sup_bid : ℚ
  sup_bid_qse : ℚ
  sup_bid_nontrade : ℚ
  sup_price : ℚ
  deriving DecidableEq, Repr

/-- One row of taipower_reserve_data (key, measured fields, and the
created_at / updated_at markers). -/
structure ReserveRow where
  tran_date : PyDate
  tran_hour : Nat
  payload : ReservePayload
  created_at : Timestamp
  updated_at : Timestamp
  deriving DecidableEq, Repr

abbrev ReserveDB := List ReserveRow

/-- Strict comparison of timestamps: lexicographic over the six fields, the
order in which Python datetimes compare. -/
def Timestamp.ltb (a b : Timestamp) : Bool :=
  if a.year ≠ b.year then decide (a.year < b.year)
  else if a.month ≠ b.month then decide (a.month < b.month)
  else if a.day ≠ b.day then decide (a.day < b.day)
  else if a.hour ≠ b.hour then decide (a.hour < b.hour)
  else if a.minute ≠ b.minute then decide (a.minute < b.minute)
  else decide (a.second < b.second)

/-- TaipowerReserveModel.UPSERT_SQL: insert, and ON CONFLICT (tran_date,
tran_hour) DO UPDATE SET all eleven measured fields to the excluded values
and updated_at to CURRENT_TIMESTAMP (the time of the replacing write); the
key and created_at are left untouched.  now is the value of
CURRENT_TIMESTAMP for this write. -/
def upsertReserve (d : PyDate) (h : Nat) (p : ReservePayload) (now : Timestamp) :
    ReserveDB → ReserveDB
  | [] => [⟨d, h, p, now, now⟩]
  | x :: rest =>
      if x.tran_date == d && x.tran_hour == h then
        { x with payload := p, updated_at := now } :: rest
      else x :: upsertReserve d h p now rest

/-- Lookup of the unique (tran_date, tran_hour) row. -/
def findReserve (db : ReserveDB) (d : PyDate) (h : Nat) : Option ReserveRow :=
  db.find? (fun x => x.tran_date == d && x.tran_hour == h)

/-- Repeated application of the upsert for one key: each element of apps is
the payload of one ingestion together with the CURRENT_TIMESTAMP of that
write. -/
def applyReserveApps (d : PyDate) (h : Nat)
    (apps : List (ReservePayload × Timestamp)) (db : ReserveDB) : ReserveDB :=
  apps.foldl (fun s pa => upsertReserve d h pa.1 pa.2 s) db

/-! ## Reserve statistics (SELECT_STATISTICS_SQL and the statistics handler) -/

/-- SQL MAX as a fold over the remaining elements starting from the first. -/
def qmax1 : ℚ → List ℚ → ℚ
  | a, [] => a
  | a, x :: xs => qmax1 (max a x) xs

/-- SQL MIN as a fold over the remaining elements starting from the first. -/
def qmin1 : ℚ → List ℚ → ℚ
  | a, [] => a
  | a, x :: xs => qmin1 (min a x) xs

/-- The one aggregate row produced by SELECT_STATISTICS_SQL for a date. -/
structure ReserveStats where
  avg_sr_price : ℚ
  max_sr_price : ℚ
  min_sr_price : ℚ
  avg_sup_price : ℚ
  max_sup_price : ℚ
  min_sup_price : ℚ
  total_sr_capacity : ℚ
  total_sup_capacity : ℚ
  deriving DecidableEq, Repr

/-- The rows of taipower_reserve_data matching WHERE tran_date = d. -/
def reserveRowsFor (db : ReserveDB) (d : PyDate) : List ReserveRow :=
  db.filter (fun x => x.tran_date == d)

/-- SELECT_STATISTICS_SQL: with GROUP BY tran_date the query yields no row at
all when no row matches the date, and otherwise one row of aggregates:
AVG/MAX/MIN of sr_price and sup_price and SUM of the three bid components per
category. -/
def aggStats : List ReserveRow → Option ReserveStats
  | [] => none
  | r :: rs =>
      some
        { avg_sr_price :=
            ((r :: rs).map (fun x => x.payload.sr_price)).sum / ((r :: rs).length : ℚ)
          max_sr_price := qmax1 r.payload.sr_price (rs.map (fun x => x.payload.sr_price))
          min_sr_price := qmin1 r.payload.sr_price (rs.map (fun x => x.payload.sr_price))
          avg_sup_price :=
            ((r :: rs).map (fun x => x.payload.sup_price)).sum / ((r :: rs).length : ℚ)
          max_sup_price := qmax1 r.payload.sup_price (rs.map (fun x => x.payload.sup_price))
          min_sup_price := qmin1 r.payload.sup_price (rs.map (fun x => x.payload.sup_price))
          total_sr_capacity :=
            ((r :: rs).map
                (fun x => x.payload.sr_bid + x.payload.sr_bid_qse + x.payload.sr_bid_nontrade)).sum
          total_sup_capacity :=
            ((r :: rs).map
                (fun x => x.payload.sup_bid + x.payload.sup_bid_qse + x.payload.sup_bid_nontrade)).sum }

/-- The response of the statistics endpoint: HTTP 404 or the statistics body. -/
inductive StatsResponse where
  | notFound
  | ok (s : ReserveStats)
  deriving DecidableEq, Repr

/-- The guard the handler puts around each aggregate value: float(x) if x
else 0 (Python truthiness; on rationals this is the identity). -/
def truthyGuard (q : ℚ) : ℚ := if q = 0 then 0 else q

/-- routers/taipower.py get_reserve_statistics: fetch_one on the statistics
query; a missing aggregate row becomes HTTP 404, otherwise the eight
aggregates are packed into the response through the truthiness guard. -/
def get_reserve_statistics (db : ReserveDB) (d : PyDate) : StatsResponse :=
  match aggStats (reserveRowsFor db d) with
  | none => .notFound
  | some s =>
      .ok
        { avg_sr_price := truthyGuard s.avg_sr_price
          max_sr_price := truthyGuard s.max_sr_price
          min_sr_price := truthyGuard s.min_sr_price
          avg_sup_price := truthyGuard s.avg_sup_price
          max_sup_price := truthyGuard s.max_sup_price
          min_sup_price := truthyGuard s.min_sup_price
          total_sr_capacity := truthyGuard s.total_sr_capacity
          total_sup_capacity := truthyGuard s.total_sup_capacity }

/-! ## HTTP-facing result paths (routers/vpp.py and routers/taipower.py) -/

/-- The RealDictRow that the cursor delivers for a solar_data row: the
datetime column arrives as a Python datetime and every NUMERIC column as a
Decimal. -/
def solarRowToPyRow (r : SolarRow) : Row :=
  [("site_id", .vStr r.site_id),
   ("datetime", .vDatetime r.dt),
   ("daily_generation", .vDecimal r.daily_generation),
   ("solar_radiation", .vDecimal r.solar_radiation),
   ("ac_avg_voltage", .vDecimal r.ac_avg_voltage),
   ("ac_total_power", .vDecimal r.ac_total_power),
   ("ac_total_current", .vDecimal r.ac_total_current),
   ("dc_avg_voltage", .vDecimal r.dc_avg_voltage),
   ("dc_total_power", .vDecimal r.dc_total_power),
   ("dc_total_current", .vDecimal r.dc_total_current),
   ("module_temperature", .vDecimal r.module_temperature),
   ("total_accumulated_generation", .vDecimal r.total_accumulated_generation),
   ("co2_reduction", .vDecimal r.co2_reduction)]

/-- The RealDictRow for a taipower_reserve_data row: tran_date arrives as a
Python date, tran_hour as an int, the eleven measured columns as Decimals,
and the two markers as datetimes. -/
def reserveRowToPyRow (r : ReserveRow) : Row :=
  [("tran_date", .vDate r.tran_date),
   ("tran_hour", .vInt r.tran_hour),
   ("sr_bid", .vDecimal r.payload.sr_bid),
   ("sr_bid_qse", .vDecimal r.payload.sr_bid_qse),
   ("sr_bid_nontrade", .vDecimal r.payload.sr_bid_nontrade),
   ("sr_price", .vDecimal r.payload.sr_price),
   ("sr_perf_price_1", .vDecimal r.payload.sr_perf_price_1),
   ("sr_perf_price_2", .vDecimal r.payload.sr_perf_price_2),
   ("sr_perf_price_3", .vDecimal r.payload.sr_perf_price_3),
   ("sup_bid", .vDecimal r.payload.sup_bid),
   ("sup_bid_qse", .vDecimal r.payload.sup_bid_qse),
   ("sup_bid_nontrade", .vDecimal r.payload.sup_bid_nontrade),
   ("sup_price", .vDecimal r.payload.sup_price),
   ("created_at", .vDatetime r.created_at),
   ("updated_at", .vDatetime r.updated_at)]

/-- SELECT_LATEST_SQL: the row for the site with the greatest datetime
(ORDER BY datetime DESC LIMIT 1), or none. -/
def selectLatestSolar (db : SolarDB) (site : String) : Option SolarRow :=
  (db.filter (fun r => r.site_id == site)).foldl
    (fun acc r =>
      match acc with
      | none => some r
      | some b => if Timestamp.ltb b.dt r.dt then some r else some b)
    none

/-- routers/vpp.py get_solar_latest with a site_id: the fetched row is passed
through the utils/db.py row normalizer before being returned to the HTTP
caller. -/
def get_solar_latest_site (db : SolarDB) (site : String) : Option Row :=
  row_to_dict ((selectLatestSolar db site).map solarRowToPyRow)

/-- routers/taipower.py get_reserve_by_hour: fetch_one on the
(tran_date, tran_hour) key; a missing row becomes HTTP 404, and a present row
is returned through the router's local plain-dict row_to_dict. -/
def get_reserve_by_hour_model (db : ReserveDB) (d : PyDate) (h : Nat) :
    Except String Row :=
  match findReserve db d h with
  | none => .error "404 not found"
  | some r =>
      match taipowerRowToDict (some (reserveRowToPyRow r)) with
      | some out => .ok out
      | none => .error "unreachable"

/-! ## Claim theorems: batch executor (C1, C2) -/

/-- C1: the claim states that execute_batch returns the count of rows whose
effects are present in the final committed state.  Evaluating the embedded
execute_batch on a batch of five rows whose third row collides with a
pre-existing unique key shows the returned count is 4 while only 2 of the
batch rows survive to the committed state: conn.rollback() on the conflict
also discards the two earlier successful rows, but success_count keeps
counting them. -/
theorem execute_batch_count_vs_committed :
    execute_batch uniqueInsertStmt exBaseDB exBatch = ([(3, 0), (4, 4), (5, 5)], .ok 4) ∧
    ((execute_batch uniqueInsertStmt exBaseDB exBatch).1.filter
        (fun kv => exBatch.contains kv)).length = 2 := by
  exact ⟨rfl, rfl⟩

/-- C2: the claim states that on a uniqueness conflict only the conflicting
row is rolled back and every previously successful row of the batch is
preserved.  On the five-row batch with a collision at row 3 the embedded
execute_batch does return 4 and does not raise, but the rows with keys 1 and
2 — successfully inserted before the conflict — are absent from the final
state, because conn.rollback() resets the whole transaction. -/
theorem execute_batch_loses_prior_rows :
    (execute_batch uniqueInsertStmt exBaseDB exBatch).2 = .ok 4 ∧
    hasKey (execute_batch uniqueInsertStmt exBaseDB exBatch).1 1 = false ∧
    hasKey (execute_batch uniqueInsertStmt exBaseDB exBatch).1 2 = false := by
  exact ⟨rfl, rfl, rfl⟩

/-! ## Claim theorems: query executor (C3, C4, C10) -/

/-- C3: for every statement — whether it completes normally or raises — the
acquired connection is returned to the pool, so after execute_query the pool
holds exactly as many available connections as before acquisition. -/
theorem execute_query_releases {DB R : Type} (stmt : Stmt DB R)
    (fetch fetch_one : Bool) (s : DBState DB) (h : 0 < s.pool) :
    ((execute_query stmt fetch fetch_one s).1).pool = s.pool := by
  have hz : ¬ s.pool = 0 := by omega
  cases hst : stmt s.db with
  | ok pr =>
      cases pr with
      | mk db2 rows =>
          simp [execute_query, getconn, putconn, hz, hst]
          omega
  | error e =>
      simp [execute_query, getconn, putconn, hz, hst]
      omega

/-- A statement that raises, for concrete instantiations. -/
def failStmtNat : Stmt Nat Nat := fun _ => .error "boom"

/-- A statement that increments the database and yields one row, for concrete
instantiations. -/
def okStmtNat : Stmt Nat Nat := fun db => .ok (db + 1, [7])

/-- Witness for C3: a pool of one connection, a statement that raises; the
pool is back to one available connection afterwards. -/
theorem execute_query_releases_witness :
    0 < (1 : Nat) ∧ ((execute_query failStmtNat true false ⟨1, 0⟩).1).pool = 1 :=
  ⟨Nat.one_pos, execute_query_releases failStmtNat true false ⟨1, 0⟩ Nat.one_pos⟩

/-- C4: on successful completion execute_query commits (the committed state
becomes the statement's result state and a result is returned), and on any
exception it rolls back (the committed state is unchanged) and re-raises the
very same error to the caller. -/
theorem execute_query_commit_rollback {DB R : Type} (stmt : Stmt DB R)
    (fetch fetch_one : Bool) (s : DBState DB) (h : 0 < s.pool) :
    (∀ db2 rows, stmt s.db = .ok (db2, rows) →
      ((execute_query stmt fetch fetch_one s).1).db = db2 ∧
      ∃ r, (execute_query stmt fetch fetch_one s).2 = .ok r) ∧
    (∀ e, stmt s.db = .error e →
      ((execute_query stmt fetch fetch_one s).1).db = s.db ∧
      (execute_query stmt fetch fetch_one s).2 = .error e) := by
  have hz : ¬ s.pool = 0 := by omega
  constructor
  · intro db2 rows hst
    simp [execute_query, getconn, putconn, hz, hst]
  · intro e hst
    simp [execute_query, getconn, putconn, hz, hst]

/-- Witness for C4: a successful statement commits its effect (10 becomes 11)
and a raising statement leaves the committed state at 10 and propagates the
error unchanged. -/
theorem execute_query_commit_rollback_witness :
    ((execute_query okStmtNat true false ⟨2, 10⟩).1).db = 11 ∧
    ((execute_query failStmtNat true false ⟨2, 10⟩).1).db = 10 ∧
    (execute_query failStmtNat true false ⟨2, 10⟩).2 = .error "boom" := by
  refine ⟨?_, ?_, ?_⟩
  · exact ((execute_query_commit_rollback okStmtNat true false ⟨2, 10⟩ (by decide)).1
      11 [7] rfl).1
  · exact ((execute_query_commit_rollback failStmtNat true false ⟨2, 10⟩ (by decide)).2
      "boom" rfl).1
  · exact ((execute_query_commit_rollback failStmtNat true false ⟨2, 10⟩ (by decide)).2
      "boom" rfl).2

/-- C10: when both fetch and fetch_one are set, execute_query returns the
full sequence of result rows (the multi-row branch is tested first), and the
single-row fetch applies only when fetch is false. -/
theorem execute_query_fetch_precedence {DB R : Type} (stmt : Stmt DB R)
    (s : DBState DB) (db2 : DB) (rows : List R) (h : 0 < s.pool)
    (hok : stmt s.db = .ok (db2, rows)) :
    (execute_query stmt true true s).2 = .ok (QueryResult.many rows) ∧
    (execute_query stmt false true s).2 = .ok (QueryResult.one rows.head?) := by
  have hz : ¬ s.pool = 0 := by omega
  constructor <;> simp [execute_query, getconn, putconn, hz, hok]

/-- Witness for C10: with both flags set the single result row comes back as
a full sequence; with only fetch_one set it comes back as a single row. -/
theorem execute_query_fetch_precedence_witness :
    (execute_query okStmtNat true true ⟨2, 10⟩).2 = .ok (QueryResult.many [7]) ∧
    (execute_query okStmtNat false true ⟨2, 10⟩).2 = .ok (QueryResult.one (some 7)) := by
  have h := execute_query_fetch_precedence okStmtNat ⟨2, 10⟩ 11 [7] (by decide) rfl
  simpa using h

/-! ## Claim theorems: row normalizer (C5) -/

/-- C5 counterexample: the claim says every value that is neither temporal
nor an arbitrary-precision/fixed-point numeric passes through row_to_dict
unchanged.  A boolean is such a value, yet hasattr(True, the float slot)
holds in Python — bool is a subclass of int — so the normalizer turns True
into the float 1.0 instead of passing it through. -/
theorem row_to_dict_bool_not_preserved :
    row_to_dict (some [("flag", PyVal.vBool true)]) =
      some [("flag", PyVal.vFloat 1)] ∧
    PyVal.vFloat 1 ≠ PyVal.vBool true := by
  exact ⟨rfl, by decide⟩

/-- C5 amended: row_to_dict maps a null row to an absent result; on a present
row it keeps every key and converts each value independently: temporal values
to their ISO-8601 strings, Decimal values to floats — and likewise every
other value exposing a float conversion (ints and booleans, bool being an
int subclass, so True becomes 1.0); values with neither an isoformat nor a
float conversion pass through unchanged. -/
theorem row_to_dict_amended_spec :
    row_to_dict none = none ∧
    (∀ row : Row,
      row_to_dict (some row) = some (row.map (fun kv => (kv.1, convertValue kv.2)))) ∧
    (∀ row : Row, ∃ out, row_to_dict (some row) = some out ∧
      out.map Prod.fst = row.map Prod.fst) ∧
    (∀ d, convertValue (PyVal.vDate d) = .vStr (isoDate d)) ∧
    (∀ t, convertValue (PyVal.vDatetime t) = .vStr (isoDatetime t)) ∧
    (∀ q, convertValue (PyVal.vDecimal q) = .vFloat q) ∧
    (∀ n, convertValue (PyVal.vInt n) = .vFloat (n : ℚ)) ∧
    (∀ b, convertValue (PyVal.vBool b) = .vFloat (if b then 1 else 0)) ∧
    (∀ v, hasIsoformat v = false → hasFloatConv v = false → convertValue v = v) := by
  refine ⟨rfl, fun row => rfl, ?_, fun d => rfl, fun t => rfl, fun q => rfl,
    fun n => rfl, fun b => rfl, ?_⟩
  · intro row
    exact ⟨_, rfl, by simp⟩
  · intro v h1 h2
    cases v <;> simp_all [convertValue, hasIsoformat, hasFloatConv]

/-- Witness for the amended C5: a plain string has neither conversion and
passes through unchanged. -/
theorem row_to_dict_amended_spec_witness :
    hasIsoformat (PyVal.vStr "ok") = false ∧
    hasFloatConv (PyVal.vStr "ok") = false ∧
    convertValue (PyVal.vStr "ok") = PyVal.vStr "ok" :=
  ⟨rfl, rfl, row_to_dict_amended_spec.2.2.2.2.2.2.2.2 (PyVal.vStr "ok") rfl rfl⟩

/-! ## Claim theorems: normalization on HTTP-facing paths (C6) -/

/-- A concrete reserve row, with Decimal-valued columns. -/
def exReserveRow : ReserveRow :=
  ⟨⟨2026, 2, 3⟩, 5, ⟨1, 2, 3, 50, 4, 5, 6, 7, 8, 9, 30⟩,
   ⟨2026, 2, 3, 5, 0, 0⟩, ⟨2026, 2, 3, 5, 0, 0⟩⟩

/-- C6 counterexample: the claim says every row returned to an HTTP-facing
caller has the normalizer's conversion applied.  The taipower router's
by-hour endpoint returns its row through the router's local plain-dict
row_to_dict, so the caller receives a row that still contains raw date and
Decimal values — the conversion was not applied on this path. -/
theorem taipower_row_unnormalized :
    get_reserve_by_hour_model [exReserveRow] ⟨2026, 2, 3⟩ 5 =
      .ok (reserveRowToPyRow exReserveRow) ∧
    rowNormalized (some (reserveRowToPyRow exReserveRow)) = false := by
  exact ⟨rfl, rfl⟩

/-- C6 amended: rows returned on the vpp router paths pass through the
utils/db.py normalizer before reaching the HTTP caller (no temporal or
Decimal value survives), while the taipower router returns its rows as plain
dicts, without that conversion. -/
theorem router_normalization_split :
    (∀ (db : SolarDB) (site : String),
      rowNormalized (get_solar_latest_site db site) = true) ∧
    (∀ (db : ReserveDB) (d : PyDate) (h : Nat) (r : ReserveRow),
      findReserve db d h = some r →
      get_reserve_by_hour_model db d h = .ok (reserveRowToPyRow r)) := by
  constructor
  · intro db site
    exact row_to_dict_normalized _
  · intro db d h r hf
    simp [get_reserve_by_hour_model, hf, taipowerRowToDict]

/-- Witness for the amended C6: on the one-row database the by-hour endpoint
hands the raw row back unchanged. -/
theorem router_normalization_split_witness :
    findReserve [exReserveRow] ⟨2026, 2, 3⟩ 5 = some exReserveRow ∧
    get_reserve_by_hour_model [exReserveRow] ⟨2026, 2, 3⟩ 5 =
      .ok (reserveRowToPyRow exReserveRow) :=
  ⟨rfl, router_normalization_split.2 [exReserveRow] ⟨2026, 2, 3⟩ 5 exReserveRow rfl⟩

/-! ## Claim theorems: insert-or-ignore idempotence (C8) -/

/-- Whether solar_data already holds a row with the given key. -/
def hasSolarKey (db : SolarDB) (k : String × Timestamp) : Bool :=
  db.any (fun x => solarKey x == k)

/-- Whether load_data already holds a row with the given key. -/
def hasLoadKey (db : LoadDB) (k : String × Timestamp) : Bool :=
  db.any (fun x => loadKey x == k)

theorem hasSolarKey_insert (db : SolarDB) (r : SolarRow) :
    hasSolarKey (solarInsert db r) (solarKey r) = true := by
  induction db with
  | nil => simp [solarInsert, hasSolarKey]
  | cons x rest ih =>
      cases hx : (solarKey x == solarKey r) with
      | true => simp [solarInsert, hx, hasSolarKey]
      | false =>
          simp only [solarInsert, hx, Bool.false_eq_true, if_false]
          simp [hasSolarKey, hx] at ih ⊢
          exact ih

theorem solarInsert_of_hasKey (db : SolarDB) (r : SolarRow)
    (h : hasSolarKey db (solarKey r) = true) : solarInsert db r = db := by
  induction db with
  | nil => simp [hasSolarKey] at h
  | cons x rest ih =>
      cases hx : (solarKey x == solarKey r) with
      | true => simp [solarInsert, hx]
      | false =>
          simp only [hasSolarKey, List.any_cons, hx, Bool.false_or] at h
          simp [solarInsert, hx, ih h]

theorem solarFold_same_key (k : String × Timestamp) (rs : List SolarRow) :
    ∀ db : SolarDB, (∀ r ∈ rs, solarKey r = k) → hasSolarKey db k = true →
      rs.foldl solarInsert db = db := by
  induction rs with
  | nil => intro db _ _; rfl
  | cons r rest ih =>
      intro db hk hdb
      have hr : solarKey r = k := hk r (List.mem_cons_self r rest)
      have hstep : solarInsert db r = db := solarInsert_of_hasKey db r (hr ▸ hdb)
      have := ih db (fun x hx => hk x (List.mem_cons_of_mem r hx)) hdb
      simpa [List.foldl_cons, hstep] using this

theorem hasLoadKey_insert (db : LoadDB) (r : LoadRow) :
    hasLoadKey (loadInsert db r) (loadKey r) = true := by
  induction db with
  | nil => simp [loadInsert, hasLoadKey]
  | cons x rest ih =>
      cases hx : (loadKey x == loadKey r) with
      | true => simp [loadInsert, hx, hasLoadKey]
      | false =>
          simp only [loadInsert, hx, Bool.false_eq_true, if_false]
          simp [hasLoadKey, hx] at ih ⊢
          exact ih

theorem loadInsert_of_hasKey (db : LoadDB) (r : LoadRow)
    (h : hasLoadKey db (loadKey r) = true) : loadInsert db r = db := by
  induction db with
  | nil => simp [hasLoadKey] at h
  | cons x rest ih =>
      cases hx : (loadKey x == loadKey r) with
      | true => simp [loadInsert, hx]
      | false =>
          simp only [hasLoadKey, List.any_cons, hx, Bool.false_or] at h
          simp [loadInsert, hx, ih h]

theorem loadFold_same_key (k : String × Timestamp) (rs : List LoadRow) :
    ∀ db : LoadDB, (∀ r ∈ rs, loadKey r = k) → hasLoadKey db k = true →
      rs.foldl loadInsert db = db := by
  induction rs with
  | nil => intro db _ _; rfl
  | cons r rest ih =>
      intro db hk hdb
      have hr : loadKey r = k := hk r (List.mem_cons_self r rest)
      have hstep : loadInsert db r = db := loadInsert_of_hasKey db r (hr ▸ hdb)
      have := ih db (fun x hx => hk x (List.mem_cons_of_mem r hx)) hdb
      simpa [List.foldl_cons, hstep] using this

/-- C8: applying the solar or load insert-or-ignore write N greater or equal
to 1 times with the same (site, timestamp) key and arbitrary payloads leaves
the table exactly as after the first application; every duplicate is a
silent no-op (the ON CONFLICT DO NOTHING statements are total — no error is
ever raised for a duplicate). -/
theorem insert_ignore_idempotent (db : SolarDB) (ldb : LoadDB)
    (r0 : SolarRow) (rs : List SolarRow) (l0 : LoadRow) (ls : List LoadRow)
    (hs : ∀ r ∈ rs, solarKey r = solarKey r0)
    (hl : ∀ l ∈ ls, loadKey l = loadKey l0) :
    (r0 :: rs).foldl solarInsert db = solarInsert db r0 ∧
    (l0 :: ls).foldl loadInsert ldb = loadInsert ldb l0 := by
  constructor
  · have := solarFold_same_key (solarKey r0) rs (solarInsert db r0) hs
      (hasSolarKey_insert db r0)
    simpa [List.foldl_cons] using this
  · have := loadFold_same_key (loadKey l0) ls (loadInsert ldb l0) hl
      (hasLoadKey_insert ldb l0)
    simpa [List.foldl_cons] using this

/-- A concrete solar reading. -/
def wSolarA : SolarRow := ⟨"north", ⟨2026, 1, 1, 0, 0, 0⟩, 1, 2, 3, 4, 5, 6, 7, 8, 9, 10, 11⟩

/-- The same key as wSolarA with a different payload. -/
def wSolarB : SolarRow := { wSolarA with daily_generation := 99 }

/-- A concrete load reading. -/
def wLoadA : LoadRow := ⟨"north", ⟨2026, 1, 1, 0, 0, 0⟩, 42⟩

/-- The same key as wLoadA with a different payload. -/
def wLoadB : LoadRow := { wLoadA with load_value := 77 }

/-- Witness for C8: ingesting the same key twice with different payloads
equals ingesting it once, for both reading tables. -/
theorem insert_ignore_idempotent_witness :
    (∀ r ∈ [wSolarB], solarKey r = solarKey wSolarA) ∧
    (∀ l ∈ [wLoadB], loadKey l = loadKey wLoadA) ∧
    ([wSolarA, wSolarB].foldl solarInsert [] = solarInsert [] wSolarA ∧
      [wLoadA, wLoadB].foldl loadInsert [] = loadInsert [] wLoadA) := by
  refine ⟨by decide, by decide, ?_⟩
  exact insert_ignore_idempotent [] [] wSolarA [wSolarB] wLoadA [wLoadB]
    (by decide) (by decide)

/-! ## Claim theorems: insert-or-replace, last write wins (C9) -/

theorem findReserve_upsert (db : ReserveDB) (d : PyDate) (h : Nat)
    (p : ReservePayload) (t : Timestamp) :
    ∃ r, findReserve (upsertReserve d h p t db) d h = some r ∧
      r.payload = p ∧ r.updated_at = t := by
  induction db with
  | nil =>
      refine ⟨⟨d, h, p, t, t⟩, ?_, rfl, rfl⟩
      simp [upsertReserve, findReserve]
  | cons x rest ih =>
      cases hx : (x.tran_date == d && x.tran_hour == h) with
      | true =>
          refine ⟨{ x with payload := p, updated_at := t }, ?_, rfl, rfl⟩
          simp only [upsertReserve, hx, if_true]
          simp [findReserve, List.find?_cons, hx]
      | false =>
          obtain ⟨r, hf, hp, hu⟩ := ih
          refine ⟨r, ?_, hp, hu⟩
          simp only [upsertReserve, hx, Bool.false_eq_true, if_false]
          simp only [findReserve, List.find?_cons, hx] at hf ⊢
          exact hf

theorem applyReserveApps_getLast (d : PyDate) (h : Nat)
    (apps : List (ReservePayload × Timestamp)) :
    ∀ (a : ReservePayload × Timestamp) (db : ReserveDB),
    ∃ r la, (a :: apps).getLast? = some la ∧
      findReserve (applyReserveApps d h (a :: apps) db) d h = some r ∧
      r.payload = la.1 ∧ r.updated_at = la.2 := by
  induction apps with
  | nil =>
      intro a db
      obtain ⟨r, hf, hp, hu⟩ := findReserve_upsert db d h a.1 a.2
      exact ⟨r, a, rfl, by simpa [applyReserveApps] using hf, hp, hu⟩
  | cons b rest ih =>
      intro a db
      obtain ⟨r, la, hla, hf, hp, hu⟩ := ih b (upsertReserve d h a.1 a.2 db)
      refine ⟨r, la, ?_, ?_, hp, hu⟩
      · simpa [List.getLast?_cons_cons] using hla
      · simpa [applyReserveApps, List.foldl_cons] using hf

theorem getLast_take_succ {α : Type} :
    ∀ (l : List α) (i : Nat), i < l.length → (l.take (i + 1)).getLast? = l[i]?
  | [], i, hi => by simp at hi
  | x :: xs, 0, _ => by simp
  | x :: xs, i + 1, hi => by
      have hi2 : i < xs.length := by simpa using hi
      cases xs with
      | nil => simp at hi2
      | cons y ys =>
          have := getLast_take_succ (y :: ys) i hi2
          simpa [List.take_succ_cons, List.getLast?_cons_cons] using this

theorem chain_consecutive {α : Type} {R : α → α → Prop} :
    ∀ (l : List α), List.Chain' R l →
      ∀ (i : Nat) (u v : α), l[i]? = some u → l[i + 1]? = some v → R u v
  | [], _, i, u, v, hu, _ => by simp at hu
  | [x], _, i, u, v, hu, hv => by
      cases i with
      | zero => simp at hv
      | succ n => simp at hu
  | x :: y :: xs, hch, i, u, v, hu, hv => by
      cases i with
      | zero =>
          simp only [List.getElem?_cons_zero, Option.some.injEq] at hu
          simp only [List.getElem?_cons_succ, List.getElem?_cons_zero,
            Option.some.injEq] at hv
          subst hu; subst hv
          exact (List.chain'_cons.mp hch).1
      | succ n =>
          exact chain_consecutive (y :: xs) (List.chain'_cons.mp hch).2 n u v
            (by simpa using hu) (by simpa using hv)

/-- C9: repeated reserve upserts for one (date, hour) key behave as last
write wins: after any nonempty sequence of applications, the stored row's
eleven measured fields equal the last payload and its updated_at equals the
CURRENT_TIMESTAMP of the last write; after the first i+1 applications the
stored updated_at is exactly the i-th write's timestamp (refreshed on every
write); and along a sequence of distinct applications — whose write
timestamps are strictly increasing — consecutive stored updated_at values
strictly increase. -/
theorem reserve_upsert_last_write_wins (db : ReserveDB) (d : PyDate) (hr : Nat)
    (a : ReservePayload × Timestamp) (apps : List (ReservePayload × Timestamp))
    (hchain : List.Chain'
      (fun s t => Timestamp.ltb s t = true) ((a :: apps).map Prod.snd)) :
    (∃ r la, (a :: apps).getLast? = some la ∧
      findReserve (applyReserveApps d hr (a :: apps) db) d hr = some r ∧
      r.payload = la.1 ∧ r.updated_at = la.2) ∧
    (∀ i : Nat, i < (a :: apps).length →
      (findReserve (applyReserveApps d hr ((a :: apps).take (i + 1)) db) d hr).map
        (fun r => r.updated_at) = ((a :: apps)[i]?).map Prod.snd) ∧
    (∀ (i : Nat) (u v : Timestamp),
      ((a :: apps)[i]?).map Prod.snd = some u →
      ((a :: apps)[i + 1]?).map Prod.snd = some v →
      Timestamp.ltb u v = true) := by
  refine ⟨applyReserveApps_getLast d hr apps a db, ?_, ?_⟩
  · intro i hi
    have htake : (a :: apps).take (i + 1) = a :: apps.take i := List.take_succ_cons
    obtain ⟨r, la, hla, hf, hp, hu⟩ :=
      applyReserveApps_getLast d hr (apps.take i) a db
    have h2 : ((a :: apps).take (i + 1)).getLast? = (a :: apps)[i]? :=
      getLast_take_succ (a :: apps) i hi
    rw [htake] at h2
    rw [hla] at h2
    rw [htake, hf, ← h2]
    simp [hu]
  · intro i u v hu hv
    have hu2 : ((a :: apps).map Prod.snd)[i]? = some u := by
      rw [List.getElem?_map]; exact hu
    have hv2 : ((a :: apps).map Prod.snd)[i + 1]? = some v := by
      rw [List.getElem?_map]; exact hv
    exact chain_consecutive _ hchain i u v hu2 hv2

/-- A first concrete reserve payload. -/
def wPay1 : ReservePayload := ⟨1, 1, 1, 10, 0, 0, 0, 2, 2, 2, 20⟩

/-- A second, different concrete reserve payload. -/
def wPay2 : ReservePayload := ⟨3, 3, 3, 30, 0, 0, 0, 4, 4, 4, 40⟩

/-- Witness for C9: two ingestions for the same key at strictly increasing
times leave the second payload and the second timestamp stored. -/
theorem reserve_upsert_last_write_wins_witness :
    ∃ r la, ([(wPay1, (⟨2026, 1, 1, 0, 0, 0⟩ : Timestamp)),
        (wPay2, (⟨2026, 1, 1, 0, 5, 0⟩ : Timestamp))].getLast? = some la) ∧
      findReserve (applyReserveApps ⟨2026, 1, 1⟩ 0
        [(wPay1, ⟨2026, 1, 1, 0, 0, 0⟩), (wPay2, ⟨2026, 1, 1, 0, 5, 0⟩)] [])
        ⟨2026, 1, 1⟩ 0 = some r ∧
      r.payload = la.1 ∧ r.updated_at = la.2 :=
  (reserve_upsert_last_write_wins [] ⟨2026, 1, 1⟩ 0
    (wPay1, ⟨2026, 1, 1, 0, 0, 0⟩) [(wPay2, ⟨2026, 1, 1, 0, 5, 0⟩)]
    (List.chain'_pair.mpr (by decide))).1

/-! ## Claim theorems: reserve statistics (C7) -/

theorem qmax1_mem (xs : List ℚ) : ∀ a, qmax1 a xs = a ∨ qmax1 a xs ∈ xs := by
  induction xs with
  | nil => exact fun a => Or.inl rfl
  | cons x xs ih =>
      intro a
      have hdef : qmax1 a (x :: xs) = qmax1 (max a x) xs := rfl
      rcases ih (max a x) with h | h
      · rcases max_cases a x with ⟨he, _⟩ | ⟨he, _⟩
        · exact Or.inl (by rw [hdef, h, he])
        · exact Or.inr (by rw [hdef, h, he]; exact List.mem_cons_self x xs)
      · exact Or.inr (List.mem_cons_of_mem x (by rw [hdef]; exact h))

theorem le_qmax1 (xs : List ℚ) : ∀ a, a ≤ qmax1 a xs := by
  induction xs with
  | nil => exact fun a => le_refl a
  | cons x xs ih => exact fun a => le_trans (le_max_left a x) (ih (max a x))

theorem qmax1_le_of_mem (xs : List ℚ) : ∀ a x, x ∈ xs → x ≤ qmax1 a xs := by
  induction xs with
  | nil => intro a x hx; simp at hx
  | cons y xs ih =>
      intro a x hx
      rcases List.mem_cons.mp hx with rfl | hx
      · exact le_trans (le_max_right a x) (le_qmax1 xs (max a x))
      · exact ih (max a y) x hx

theorem qmax1_head_mem (a : ℚ) (xs : List ℚ) : qmax1 a xs ∈ a :: xs := by
  rcases qmax1_mem xs a with h | h
  · rw [h]; exact List.mem_cons_self a xs
  · exact List.mem_cons_of_mem a h

theorem qmax1_bound (a : ℚ) (xs : List ℚ) : ∀ q ∈ a :: xs, q ≤ qmax1 a xs := by
  intro q hq
  rcases List.mem_cons.mp hq with rfl | hq
  · exact le_qmax1 xs q
  · exact qmax1_le_of_mem xs a q hq

theorem qmin1_mem (xs : List ℚ) : ∀ a, qmin1 a xs = a ∨ qmin1 a xs ∈ xs := by
  induction xs with
  | nil => exact fun a => Or.inl rfl
  | cons x xs ih =>
      intro a
      have hdef : qmin1 a (x :: xs) = qmin1 (min a x) xs := rfl
      rcases ih (min a x) with h | h
      · rcases min_cases a x with ⟨he, _⟩ | ⟨he, _⟩
        · exact Or.inl (by rw [hdef, h, he])
        · exact Or.inr (by rw [hdef, h, he]; exact List.mem_cons_self x xs)
      · exact Or.inr (List.mem_cons_of_mem x (by rw [hdef]; exact h))

theorem qmin1_le (xs : List ℚ) : ∀ a, qmin1 a xs ≤ a := by
  induction xs with
  | nil => exact fun a => le_refl a
  | cons x xs ih => exact fun a => le_trans (ih (min a x)) (min_le_left a x)

theorem qmin1_le_of_mem (xs : List ℚ) : ∀ a x, x ∈ xs → qmin1 a xs ≤ x := by
  induction xs with
  | nil => intro a x hx; simp at hx
  | cons y xs ih =>
      intro a x hx
      rcases List.mem_cons.mp hx with rfl | hx
      · exact le_trans (qmin1_le xs (min a x)) (min_le_right a x)
      · exact ih (min a y) x hx

theorem qmin1_head_mem (a : ℚ) (xs : List ℚ) : qmin1 a xs ∈ a :: xs := by
  rcases qmin1_mem xs a with h | h
  · rw [h]; exact List.mem_cons_self a xs
  · exact List.mem_cons_of_mem a h

theorem qmin1_bound (a : ℚ) (xs : List ℚ) : ∀ q ∈ a :: xs, qmin1 a xs ≤ q := by
  intro q hq
  rcases List.mem_cons.mp hq with rfl | hq
  · exact qmin1_le xs q
  · exact qmin1_le_of_mem xs a q hq

theorem truthyGuard_eq (q : ℚ) : truthyGuard q = q := by
  unfold truthyGuard
  split <;> simp_all

/-- C7: the statistics endpoint answers not-found exactly when the date has
no reserve rows, and otherwise returns, per category, the average price (the
sum of the prices over the date's rows divided by the row count), a maximal
price attained by one of the rows, a minimal price attained by one of the
rows, and the summed capacity: the sum over the rows of the three
bid-component fields. -/
theorem get_reserve_statistics_spec (db : ReserveDB) (d : PyDate) :
    (reserveRowsFor db d = [] → get_reserve_statistics db d = .notFound) ∧
    (∀ x rs, reserveRowsFor db d = x :: rs →
      ∃ s, get_reserve_statistics db d = .ok s ∧
        s.avg_sr_price =
          ((x :: rs).map (fun r => r.payload.sr_price)).sum / ((x :: rs).length : ℚ) ∧
        s.max_sr_price ∈ (x :: rs).map (fun r => r.payload.sr_price) ∧
        (∀ q ∈ (x :: rs).map (fun r => r.payload.sr_price), q ≤ s.max_sr_price) ∧
        s.min_sr_price ∈ (x :: rs).map (fun r => r.payload.sr_price) ∧
        (∀ q ∈ (x :: rs).map (fun r => r.payload.sr_price), s.min_sr_price ≤ q) ∧
        s.avg_sup_price =
          ((x :: rs).map (fun r => r.payload.sup_price)).sum / ((x :: rs).length : ℚ) ∧
        s.max_sup_price ∈ (x :: rs).map (fun r => r.payload.sup_price) ∧
        (∀ q ∈ (x :: rs).map (fun r => r.payload.sup_price), q ≤ s.max_sup_price) ∧
        s.min_sup_price ∈ (x :: rs).map (fun r => r.payload.sup_price) ∧
        (∀ q ∈ (x :: rs).map (fun r => r.payload.sup_price), s.min_sup_price ≤ q) ∧
        s.total_sr_capacity = ((x :: rs).map
          (fun r => r.payload.sr_bid + r.payload.sr_bid_qse + r.payload.sr_bid_nontrade)).sum ∧
        s.total_sup_capacity = ((x :: rs).map
          (fun r => r.payload.sup_bid + r.payload.sup_bid_qse + r.payload.sup_bid_nontrade)).sum) := by
  constructor
  · intro h
    simp [get_reserve_statistics, h, aggStats]
  · intro x rs h
    refine ⟨⟨((x :: rs).map (fun r => r.payload.sr_price)).sum / ((x :: rs).length : ℚ),
        qmax1 x.payload.sr_price (rs.map (fun r => r.payload.sr_price)),
        qmin1 x.payload.sr_price (rs.map (fun r => r.payload.sr_price)),
        ((x :: rs).map (fun r => r.payload.sup_price)).sum / ((x :: rs).length : ℚ),
        qmax1 x.payload.sup_price (rs.map (fun r => r.payload.sup_price)),
        qmin1 x.payload.sup_price (rs.map (fun r => r.payload.sup_price)),
        ((x :: rs).map
          (fun r => r.payload.sr_bid + r.payload.sr_bid_qse + r.payload.sr_bid_nontrade)).sum,
        ((x :: rs).map
          (fun r => r.payload.sup_bid + r.payload.sup_bid_qse + r.payload.sup_bid_nontrade)).sum⟩,
      ?_, rfl, ?_, ?_, ?_, ?_, rfl, ?_, ?_, ?_, ?_, rfl, rfl⟩
    · simp [get_reserve_statistics, h, aggStats, truthyGuard_eq]
    · simpa [List.map_cons] using
        qmax1_head_mem x.payload.sr_price (rs.map (fun r => r.payload.sr_price))
    · intro q hq
      exact qmax1_bound x.payload.sr_price (rs.map (fun r => r.payload.sr_price)) q
        (by simpa [List.map_cons] using hq)
    · simpa [List.map_cons] using
        qmin1_head_mem x.payload.sr_price (rs.map (fun r => r.payload.sr_price))
    · intro q hq
      exact qmin1_bound x.payload.sr_price (rs.map (fun r => r.payload.sr_price)) q
        (by simpa [List.map_cons] using hq)
    · simpa [List.map_cons] using
        qmax1_head_mem x.payload.sup_price (rs.map (fun r => r.payload.sup_price))
    · intro q hq
      exact qmax1_bound x.payload.sup_price (rs.map (fun r => r.payload.sup_price)) q
        (by simpa [List.map_cons] using hq)
    · simpa [List.map_cons] using
        qmin1_head_mem x.payload.sup_price (rs.map (fun r => r.payload.sup_price))
    · intro q hq
      exact qmin1_bound x.payload.sup_price (rs.map (fun r => r.payload.sup_price)) q
        (by simpa [List.map_cons] using hq)

/-- The date of the concrete statistics example. -/
def statsDate : PyDate := ⟨2026, 1, 7⟩

/-- One hourly reserve row of the statistics example, with the given
spinning-reserve price. -/
def statsRow (h : Nat) (p : ℚ) : ReserveRow :=
  ⟨statsDate, h, ⟨1, 1, 1, p, 0, 0, 0, 1, 1, 1, 5⟩,
   ⟨2026, 1, 7, 0, 0, 0⟩, ⟨2026, 1, 7, 0, 0, 0⟩⟩

/-- The 24 hourly rows with spinning prices 10, 20, ..., 240. -/
def statsDB : ReserveDB :=
  [statsRow 0 10, statsRow 1 20, statsRow 2 30, statsRow 3 40,
   statsRow 4 50, statsRow 5 60, statsRow 6 70, statsRow 7 80,
   statsRow 8 90, statsRow 9 100, statsRow 10 110, statsRow 11 120,
   statsRow 12 130, statsRow 13 140, statsRow 14 150, statsRow 15 160,
   statsRow 16 170, statsRow 17 180, statsRow 18 190, statsRow 19 200,
   statsRow 20 210, statsRow 21 220, statsRow 22 230, statsRow 23 240]

/-- Witness for C7: a date with no rows answers not-found, and the 24-row
date with spinning prices 10..240 yields average 125, maximum 240 and
minimum 10. -/
theorem get_reserve_statistics_spec_witness :
    get_reserve_statistics [] statsDate = .notFound ∧
    ∃ s, get_reserve_statistics statsDB statsDate = .ok s ∧
      s.avg_sr_price = 125 ∧ s.max_sr_price = 240 ∧ s.min_sr_price = 10 := by
  constructor
  · exact (get_reserve_statistics_spec [] statsDate).1 rfl
  · have hrows : reserveRowsFor statsDB statsDate =
        statsRow 0 10 ::
          [statsRow 1 20, statsRow 2 30, statsRow 3 40,
           statsRow 4 50, statsRow 5 60, statsRow 6 70, statsRow 7 80,
           statsRow 8 90, statsRow 9 100, statsRow 10 110, statsRow 11 120,
           statsRow 12 130, statsRow 13 140, statsRow 14 150, statsRow 15 160,
           statsRow 16 170, statsRow 17 180, statsRow 18 190, statsRow 19 200,
           statsRow 20 210, statsRow 21 220, statsRow 22 230, statsRow 23 240] := rfl
    obtain ⟨s, hok, havg, hmaxmem, hmaxle, hminmem, hminle, _⟩ :=
      (get_reserve_statistics_spec statsDB statsDate).2 _ _ hrows
    have hmap : (statsRow 0 10 ::
        [statsRow 1 20, statsRow 2 30, statsRow 3 40,
         statsRow 4 50, statsRow 5 60, statsRow 6 70, statsRow 7 80,
         statsRow 8 90, statsRow 9 100, statsRow 10 110, statsRow 11 120,
         statsRow 12 130, statsRow 13 140, statsRow 14 150, statsRow 15 160,
         statsRow 16 170, statsRow 17 180, statsRow 18 190, statsRow 19 200,
         statsRow 20 210, statsRow 21 220, statsRow 22 230,
         statsRow 23 240]).map (fun r => r.payload.sr_price) =
        [10, 20, 30, 40, 50, 60, 70, 80, 90, 100, 110, 120, 130, 140, 150,
         160, 170, 180, 190, 200, 210, 220, 230, 240] := rfl
    rw [hmap] at havg hmaxmem hmaxle hminmem hminle
    refine ⟨s, hok, ?_, ?_, ?_⟩
    · rw [havg]
      norm_num
    · have h1 : (240 : ℚ) ≤ s.max_sr_price := hmaxle 240 (by norm_num)
      have hall : ∀ q ∈ ([10, 20, 30, 40, 50, 60, 70, 80, 90, 100, 110, 120,
          130, 140, 150, 160, 170, 180, 190, 200, 210, 220, 230, 240] :
          List ℚ), q ≤ 240 := by norm_num
      exact le_antisymm (hall s.max_sr_price hmaxmem) h1
    · have h1 : s.min_sr_price ≤ (10 : ℚ) := hminle 10 (by norm_num)
      have hall : ∀ q ∈ ([10, 20, 30, 40, 50, 60, 70, 80, 90, 100, 110, 120,
          130, 140, 150, 160, 170, 180, 190, 200, 210, 220, 230, 240] :
          List ℚ), 10 ≤ q := by norm_num
      exact le_antisymm h1 (hall s.min_sr_price hminmem)

end EfFastapi
